import Mathlib

/-!
Shallow embedding of the NDK reconciliation subsystem of
steps-install-missing-android-tools (src/main.go).

The process environment is modelled as a total function `String → String`
(Go's `os.Getenv` returns the empty string for an unset variable, and the
program only ever reads the environment through `os.Getenv`).  The
filesystem is modelled as a partial map from file paths to contents
(`String → Option String`): `none` is an unreadable or missing file.
External effects (recursive delete, sdkmanager invocation, envman exports,
unsetting a process variable) are recorded as an `Action` trace, and the
outcomes of the external collaborators are supplied by an `ExternalWorld`
record so that every execution path of `updateNDK` and of the NDK phase of
`main` is a value of a pure function.
-/

namespace AndroidTools

/-- Go's `filepath.Join` for the two-argument calls this program makes
(joining a directory with a relative component).  Go additionally cleans
the result; no path in this development needs cleaning. -/
def filepathJoin (a b : String) : String :=
  if a = "" then b else a ++ "/" ++ b

/-- Split a character list at every occurrence of the separator;
`n` separators yield `n + 1` (possibly empty) parts, and the empty list
yields one empty part — the behaviour of Go's `strings.Split` for the
one-character separators this program uses (`"\n"`, `"="`, `"."`). -/
def splitCharsOn (sep : Char) : List Char → List (List Char)
  | [] => [[]]
  | c :: t =>
    match splitCharsOn sep t with
    | [] => if c = sep then [[], []] else [[c]]
    | h :: r => if c = sep then [] :: h :: r else (c :: h) :: r

/-- Go's `strings.Split s sep` for a one-character separator. -/
def splitOnChar (sep : Char) (s : String) : List String :=
  (splitCharsOn sep s.toList).map (fun cs => String.mk cs)

/-- Go's `strings.ToLower`, restricted to the ASCII letters that can
occur around the revision key. -/
def toLowerStr (s : String) : String :=
  String.mk (s.toList.map Char.toLower)

/-- Go's `strings.TrimSpace`: drop leading and trailing whitespace. -/
def trimStr (s : String) : String :=
  String.mk
    (((s.toList.dropWhile Char.isWhitespace).reverse.dropWhile
        Char.isWhitespace).reverse)

/-- `needle` occurs as a contiguous run at the front of `haystack` or of
one of its suffixes. -/
def isInfixB (needle : List Char) : List Char → Bool
  | [] => needle.isEmpty
  | c :: t => needle.isPrefixOf (c :: t) || isInfixB needle t

/-- Go's `strings.Contains s sub`: `sub` occurs as a contiguous substring
of `s`. -/
def containsSubstring (s sub : String) : Bool :=
  isInfixB sub.toList s.toList

/-- The constant `androidNDKHome = "ANDROID_NDK_HOME"` from main.go. -/
def androidNDKHome : String := "ANDROID_NDK_HOME"

/-- The loop body of `ndkVersion` (main.go lines 49-56): scan the lines of
`source.properties`; on a line whose lowercased text contains
`pkg.revision`, split on `=`; when that yields exactly two parts return
the trimmed second part, otherwise keep scanning; return `""` when no
line yields a value. -/
def revisionFromLines : List String → String
  | [] => ""
  | line :: rest =>
    if containsSubstring (toLowerStr line) "pkg.revision" then
      let lineParts := splitOnChar '=' line
      if lineParts.length = 2 then trimStr (lineParts.getD 1 "")
      else revisionFromLines rest
    else revisionFromLines rest

/-- `ndkVersion` (main.go lines 41-58): read `<ndkPath>/source.properties`;
on any read failure return `""`; otherwise scan its lines for the
revision.  Total: there is no error path. -/
def ndkVersion (fs : String → Option String) (ndkPath : String) : String :=
  let propertiesPath := filepathJoin ndkPath "source.properties"
  match fs propertiesPath with
  | none => ""
  | some content => revisionFromLines (splitOnChar '\n' content)

/-- `currentNDKHome` (main.go lines 60-76): resolve the canonical current
NDK location from the process environment, without touching the
filesystem. -/
def currentNDKHome (getenv : String → String) : String :=
  if getenv androidNDKHome ≠ "" then getenv androidNDKHome
  else if getenv "ANDROID_HOME" ≠ "" then filepathJoin (getenv "ANDROID_HOME") "ndk-bundle"
  else if getenv "ANDROID_SDK_ROOT" ≠ "" then filepathJoin (getenv "ANDROID_SDK_ROOT") "ndk-bundle"
  else if getenv "HOME" ≠ "" then filepathJoin (getenv "HOME") "ndk-bundle"
  else "ndk-bundle"

/-- The spec's view of `currentNDKHome`: an ordered list of
(variable name, path transform) pairs, evaluated in order, first
variable with a non-empty value wins. -/
def ndkHomePrecedence : List (String × (String → String)) :=
  [(androidNDKHome, fun v => v),
   ("ANDROID_HOME", fun v => filepathJoin v "ndk-bundle"),
   ("ANDROID_SDK_ROOT", fun v => filepathJoin v "ndk-bundle"),
   ("HOME", fun v => filepathJoin v "ndk-bundle")]

/-- The location-resolver contract as the spec words it: the transform of
the first variable of `ndkHomePrecedence` holding a non-empty value, or
the bare relative name `ndk-bundle` when none does. -/
def resolveNDKHomeSpec (getenv : String → String) : String :=
  match ndkHomePrecedence.find? (fun p => decide (getenv p.1 ≠ "")) with
  | some p => p.2 (getenv p.1)
  | none => "ndk-bundle"

/-- C2: for every process environment, the location resolver returns the
explicit toolchain-home variable when non-empty, else the first of
ANDROID_HOME, ANDROID_SDK_ROOT, HOME that is set, joined with
`ndk-bundle`, else the bare relative name `ndk-bundle`; it always returns
a string (it is a total function of the environment, with no error path
and no filesystem access). -/
theorem currentNDKHome_precedence (getenv : String → String) :
    currentNDKHome getenv = resolveNDKHomeSpec getenv := by
  unfold currentNDKHome resolveNDKHomeSpec ndkHomePrecedence
  by_cases h1 : getenv androidNDKHome = "" <;>
  by_cases h2 : getenv "ANDROID_HOME" = "" <;>
  by_cases h3 : getenv "ANDROID_SDK_ROOT" = "" <;>
  by_cases h4 : getenv "HOME" = "" <;>
    simp [List.find?, h1, h2, h3, h4]

/-- Modelled from the spec: `sdkcomponent.NDK.InstallPathInAndroidHome` is
part of the external go-android library, not of this repository.  The spec
calls it the component-specific relative install path, a "versioned ndk
subpath", and the repository's own end-to-end workflow reads
`$ANDROID_HOME/ndk/<version>/source.properties` after an install. -/
def installPathInAndroidHome (version : String) : String :=
  filepathJoin "ndk" version

/-- Modelled from the spec: `version.NewVersion` is the external
hashicorp go-version parser, not part of this repository.  The spec
requires the requested version to "parse as a valid multi-component
version"; validity is modelled as a nonempty sequence of dot-separated
nonempty digit segments (so `23.0.7599858` is valid and `abc` is not). -/
def isValidVersion (s : String) : Bool :=
  s != "" &&
    (splitOnChar '.' s).all (fun seg => seg != "" && seg.toList.all Char.isDigit)

/-- The observable side effects of the step, in program order.
`removeAll` and `sdkmanagerInstall` record that the recursive delete
respectively the package-manager subprocess was invoked; `exportEnv`
records a successful durable envman export of a key/value pair;
`unsetEnv` records removing a variable from the live process
environment. -/
inductive Action
  | removeAll (path : String)
  | sdkmanagerInstall (version : String)
  | exportEnv (key value : String)
  | unsetEnv (key : String)
  deriving DecidableEq, Repr

/-- Outcomes of the external collaborators of `updateNDK` and `main`:
the filesystem read by the probe, the result of `os.RemoveAll`, of
`sdkmanager.New`, of running the install command (trimmed output and
optional error), and of each `tools.ExportEnvironmentWithEnvman` call
(`none` = the export succeeded durably). -/
structure ExternalWorld where
  fs : String → Option String
  removeAllResult : String → Option String
  sdkmanagerNewError : Option String
  installResult : String → String × Option String
  exportResult : String → String → Option String

/-- `updateNDK` (main.go lines 82-129): probe the current location; if the
probed version equals the requested one, succeed at once; otherwise
recursively delete the current location, install the requested version
with sdkmanager, and export PATH (old PATH, a colon, the new install
path appended) and ANDROID_NDK_HOME (the new install path).  Returns the
Go error result together with the trace of effects performed. -/
def updateNDK (version : String) (sdkAndroidHome : String)
    (getenv : String → String) (w : ExternalWorld) :
    Except String Unit × List Action :=
  let currentNdkHome := currentNDKHome getenv
  let currentVersion := ndkVersion w.fs currentNdkHome
  if currentVersion = version then
    (Except.ok (), [])
  else
    match w.removeAllResult currentNdkHome with
    | some e => (Except.error e, [Action.removeAll currentNdkHome])
    | none =>
      match w.sdkmanagerNewError with
      | some e => (Except.error e, [Action.removeAll currentNdkHome])
      | none =>
        match (w.installResult version).2 with
        | some e =>
          (Except.error e,
            [Action.removeAll currentNdkHome, Action.sdkmanagerInstall version])
        | none =>
          let newNDKHome := filepathJoin sdkAndroidHome (installPathInAndroidHome version)
          match w.exportResult "PATH" (getenv "PATH" ++ ":" ++ newNDKHome) with
          | some e =>
            (Except.error e,
              [Action.removeAll currentNdkHome, Action.sdkmanagerInstall version])
          | none =>
            match w.exportResult androidNDKHome newNDKHome with
            | some e =>
              (Except.error e,
                [Action.removeAll currentNdkHome, Action.sdkmanagerInstall version,
                 Action.exportEnv "PATH" (getenv "PATH" ++ ":" ++ newNDKHome)])
            | none =>
              (Except.ok (),
                [Action.removeAll currentNdkHome, Action.sdkmanagerInstall version,
                 Action.exportEnv "PATH" (getenv "PATH" ++ ":" ++ newNDKHome),
                 Action.exportEnv androidNDKHome newNDKHome])

/-- The failure kinds of the NDK phase of `main`: a configuration error
(invalid requested version, reported by `failf` before `updateNDK`
runs), a failure inside `updateNDK`, or a failure of the clearing
export. -/
inductive StepError
  | configError (msg : String)
  | installError (msg : String)
  | envError (msg : String)
  deriving DecidableEq, Repr

/-- The NDK phase of `main` (main.go lines 161-184): with a non-empty
requested version, first validate it (a parse failure is fatal before
`updateNDK` is entered), then run `updateNDK`; with an empty requested
version, unset ANDROID_NDK_HOME in the live process environment and
export it as empty through envman (`os.Unsetenv` on this fixed
well-formed name cannot fail and is modelled as always succeeding). -/
def mainNDKPhase (requested : String) (sdkAndroidHome : String)
    (getenv : String → String) (w : ExternalWorld) :
    Except StepError Unit × List Action :=
  if requested ≠ "" then
    if isValidVersion requested = false then
      (Except.error (StepError.configError
        (requested ++ " is not a valid NDK version")), [])
    else
      match updateNDK requested sdkAndroidHome getenv w with
      | (Except.ok _, tr) => (Except.ok (), tr)
      | (Except.error e, tr) => (Except.error (StepError.installError e), tr)
  else
    match w.exportResult androidNDKHome "" with
    | some e =>
      (Except.error (StepError.envError e), [Action.unsetEnv androidNDKHome])
    | none =>
      (Except.ok (),
        [Action.unsetEnv androidNDKHome, Action.exportEnv androidNDKHome ""])

/-- The key/value pairs durably published through envman, in order, as
recorded in an effect trace. -/
def publishedEntries (tr : List Action) : List (String × String) :=
  tr.filterMap (fun a =>
    match a with
    | Action.exportEnv k v => some (k, v)
    | _ => none)

/-- A concrete environment for witnesses: an explicit toolchain home at
`/ndk` and a one-entry PATH. -/
def sampleGetenv : String → String := fun n =>
  if n = "ANDROID_NDK_HOME" then "/ndk"
  else if n = "PATH" then "/usr/bin"
  else ""

/-- A concrete external world for witnesses: NDK 17.2.4988734 installed
at `/ndk`, every collaborator succeeds. -/
def sampleWorld : ExternalWorld where
  fs := fun p =>
    if p = "/ndk/source.properties" then some "Pkg.Revision = 17.2.4988734" else none
  removeAllResult := fun _ => none
  sdkmanagerNewError := none
  installResult := fun _ => ("", none)
  exportResult := fun _ _ => none

/-- A concrete external world with no toolchain installed anywhere and
every collaborator succeeding. -/
def emptyWorld : ExternalWorld where
  fs := fun _ => none
  removeAllResult := fun _ => none
  sdkmanagerNewError := none
  installResult := fun _ => ("", none)
  exportResult := fun _ _ => none

/-- C1: for every requested non-empty version, when the version probed at
the current NDK location equals it, `updateNDK` returns success with an
empty effect trace: no filesystem deletion, no package-manager
invocation, nothing exported — so a second invocation right after a
successful install of that version is a pure no-op. -/
theorem updateNDK_noop_on_match (version sdkAndroidHome : String)
    (getenv : String → String) (w : ExternalWorld)
    (hne : version ≠ "")
    (hcur : ndkVersion w.fs (currentNDKHome getenv) = version) :
    updateNDK version sdkAndroidHome getenv w = (Except.ok (), []) := by
  unfold updateNDK
  simp [hcur]

theorem updateNDK_noop_on_match_witness :
    ("17.2.4988734" : String) ≠ "" ∧
    ndkVersion sampleWorld.fs (currentNDKHome sampleGetenv) = "17.2.4988734" ∧
    updateNDK "17.2.4988734" "/sdk" sampleGetenv sampleWorld = (Except.ok (), []) :=
  ⟨by decide, by decide,
   updateNDK_noop_on_match "17.2.4988734" "/sdk" sampleGetenv sampleWorld
     (by decide) (by decide)⟩

/-- C10: when the probed current version equals the requested one, the
run publishes nothing and touches no process variable: the effect trace
of `updateNDK` holds no export and no unset, leaving the published
environment exactly as before. -/
theorem updateNDK_match_no_publish (version sdkAndroidHome : String)
    (getenv : String → String) (w : ExternalWorld)
    (hcur : ndkVersion w.fs (currentNDKHome getenv) = version) :
    (∀ k v, Action.exportEnv k v ∉ (updateNDK version sdkAndroidHome getenv w).2) ∧
    (∀ k, Action.unsetEnv k ∉ (updateNDK version sdkAndroidHome getenv w).2) := by
  constructor <;> intro k
  · intro v
    unfold updateNDK
    simp [hcur]
  · unfold updateNDK
    simp [hcur]

theorem updateNDK_match_no_publish_witness :
    ndkVersion sampleWorld.fs (currentNDKHome sampleGetenv) = "17.2.4988734" ∧
    Action.exportEnv "PATH" "/x" ∉
      (updateNDK "17.2.4988734" "/sdk" sampleGetenv sampleWorld).2 :=
  ⟨by decide,
   (updateNDK_match_no_publish "17.2.4988734" "/sdk" sampleGetenv sampleWorld
      (by decide)).1 "PATH" "/x"⟩

/-- Scanning lines none of which contains the revision key yields the
empty version. -/
theorem revisionFromLines_empty_of_no_match :
    ∀ ls : List String,
      (∀ l ∈ ls, containsSubstring (toLowerStr l) "pkg.revision" = false) →
      revisionFromLines ls = "" := by
  intro ls h
  induction ls with
  | nil => rfl
  | cons line rest ih =>
    have hline := h line (List.mem_cons_self line rest)
    unfold revisionFromLines
    simp [hline]
    exact ih (fun l hl => h l (List.mem_cons_of_mem _ hl))

/-- C7: the probe of a location whose metadata file is missing or
unreadable, or whose content has no revision line, returns the empty
version; the probe is a total function with no error path, so no error
is ever propagated or raised. -/
theorem ndkVersion_soft_miss (fs : String → Option String) (ndkPath : String) :
    (fs (filepathJoin ndkPath "source.properties") = none →
      ndkVersion fs ndkPath = "") ∧
    (∀ content, fs (filepathJoin ndkPath "source.properties") = some content →
      (∀ l ∈ splitOnChar '\n' content,
        containsSubstring (toLowerStr l) "pkg.revision" = false) →
      ndkVersion fs ndkPath = "") := by
  constructor
  · intro h
    unfold ndkVersion
    simp [h]
  · intro content h hnone
    unfold ndkVersion
    simp [h]
    exact revisionFromLines_empty_of_no_match _ hnone

/-- A filesystem where every read fails. -/
def missingFs : String → Option String := fun _ => none

/-- A filesystem whose metadata file holds no revision line. -/
def noRevFs : String → Option String := fun _ => some "Pkg.Description = x\nOther = y"

theorem ndkVersion_soft_miss_witness :
    ndkVersion missingFs "/ndk" = "" ∧ ndkVersion noRevFs "/ndk" = "" :=
  ⟨(ndkVersion_soft_miss missingFs "/ndk").1 rfl,
   (ndkVersion_soft_miss noRevFs "/ndk").2 "Pkg.Description = x\nOther = y" rfl
     (by decide)⟩

/-- C4: a non-empty requested version that does not parse as a valid
version makes the NDK phase fail with a configuration error with an
empty effect trace: no recursive deletion of the current NDK location,
no install, no export — the filesystem is untouched by the phase. -/
theorem mainNDKPhase_invalid_version (requested sdkAndroidHome : String)
    (getenv : String → String) (w : ExternalWorld)
    (hne : requested ≠ "") (hinv : isValidVersion requested = false) :
    mainNDKPhase requested sdkAndroidHome getenv w =
      (Except.error (StepError.configError
        (requested ++ " is not a valid NDK version")), []) := by
  unfold mainNDKPhase
  simp [hne, hinv]

theorem mainNDKPhase_invalid_version_witness :
    ("abc" : String) ≠ "" ∧ isValidVersion "abc" = false ∧
    mainNDKPhase "abc" "/sdk" sampleGetenv sampleWorld =
      (Except.error (StepError.configError
        ("abc" ++ " is not a valid NDK version")), []) :=
  ⟨by decide, by decide,
   mainNDKPhase_invalid_version "abc" "/sdk" sampleGetenv sampleWorld
     (by decide) (by decide)⟩

/-- C6: with an empty requested version the NDK phase (when the clearing
export goes through) succeeds and its effects are exactly unsetting
ANDROID_NDK_HOME in the live process environment and exporting it as
empty to the cross-step state — for every filesystem, so also when no
toolchain installation previously existed. -/
theorem mainNDKPhase_empty_clears (sdkAndroidHome : String)
    (getenv : String → String) (w : ExternalWorld)
    (hexp : w.exportResult androidNDKHome "" = none) :
    mainNDKPhase "" sdkAndroidHome getenv w =
      (Except.ok (),
        [Action.unsetEnv androidNDKHome, Action.exportEnv androidNDKHome ""]) := by
  unfold mainNDKPhase
  simp [hexp]

theorem mainNDKPhase_empty_clears_witness :
    emptyWorld.exportResult androidNDKHome "" = none ∧
    mainNDKPhase "" "/sdk" sampleGetenv emptyWorld =
      (Except.ok (),
        [Action.unsetEnv androidNDKHome, Action.exportEnv androidNDKHome ""]) :=
  ⟨rfl, mainNDKPhase_empty_clears "/sdk" sampleGetenv emptyWorld rfl⟩

/-- The version probe as claim C3 words it: take the first line whose
lowercased text contains the revision key; return the trimmed text after
its first `=`; empty when no line matches. -/
def revisionFirstMatchClaim (ls : List String) : String :=
  match ls.find? (fun line => containsSubstring (toLowerStr line) "pkg.revision") with
  | none => ""
  | some line =>
    match splitOnChar '=' line with
    | [] => ""
    | _ :: rest => trimStr (String.intercalate "=" rest)

/-- The metadata content refuting claim C3: the first revision line holds
a second `=`, so the code skips it and honours the second line. -/
def c3Content : String := "Pkg.Revision = 1.2.3 = x\nPkg.Revision = 9.9.9"

/-- The filesystem of the C3 counterexample. -/
def c3Fs : String → Option String := fun p =>
  if p = "/ndk/source.properties" then some c3Content else none

/-- C3 counterexample: on this content the probe returns `9.9.9` from the
second matching line, not the trimmed text after the first `=` of the
first matching line (`1.2.3 = x`) — the first matching line is not
honoured when it does not split into exactly two parts. -/
theorem ndkVersion_not_first_match :
    ndkVersion c3Fs "/ndk" = "9.9.9" ∧
    revisionFirstMatchClaim (splitOnChar '\n' c3Content) = "1.2.3 = x" ∧
    ndkVersion c3Fs "/ndk" ≠ revisionFirstMatchClaim (splitOnChar '\n' c3Content) := by
  refine ⟨by decide, by decide, by decide⟩

/-- The probe as the code implements it: the first line that both
contains the revision key (case-insensitively, anywhere in the line) and
splits on `=` into exactly two parts supplies the trimmed second part;
empty when no such line exists. -/
def revisionFirstWellFormedMatch (ls : List String) : String :=
  match ls.find? (fun line =>
      containsSubstring (toLowerStr line) "pkg.revision" &&
        decide ((splitOnChar '=' line).length = 2)) with
  | none => ""
  | some line => trimStr ((splitOnChar '=' line).getD 1 "")

/-- The scanning loop returns the value of the first well-formed
matching line. -/
theorem revisionFromLines_eq_firstWellFormed (ls : List String) :
    revisionFromLines ls = revisionFirstWellFormedMatch ls := by
  induction ls with
  | nil => rfl
  | cons line rest ih =>
    unfold revisionFromLines revisionFirstWellFormedMatch
    cases hc : containsSubstring (toLowerStr line) "pkg.revision" with
    | false =>
      simp [List.find?, hc]
      rw [ih]
      unfold revisionFirstWellFormedMatch
      simp [List.getD]
    | true =>
      by_cases hl : (splitOnChar '=' line).length = 2
      · simp [List.find?, hc, hl]
      · simp [List.find?, hc, hl]
        rw [ih]
        unfold revisionFirstWellFormedMatch
        simp [List.getD]

/-- C3 amended: for every metadata file content the probe returns the
trimmed second part of the first line that case-insensitively contains
the revision key and splits on `=` into exactly two parts; matching
lines with any other number of parts are skipped; empty when no such
line exists or the file is unreadable. -/
theorem ndkVersion_first_wellformed (fs : String → Option String) (ndkPath : String) :
    ndkVersion fs ndkPath =
      (match fs (filepathJoin ndkPath "source.properties") with
       | none => ""
       | some content => revisionFirstWellFormedMatch (splitOnChar '\n' content)) := by
  cases h : fs (filepathJoin ndkPath "source.properties") with
  | none => simp [ndkVersion, h]
  | some content => simp [ndkVersion, h, revisionFromLines_eq_firstWellFormed]

/-- C9: a line is treated as the revision line exactly when its
lowercased text contains `pkg.revision` anywhere — when such a line
splits on `=` into exactly two parts its trimmed second part is
returned, and when it does not, the line is skipped so a later matching
line may supply the result. -/
theorem revision_substring_match_and_skip (line : String) (rest : List String) :
    (containsSubstring (toLowerStr line) "pkg.revision" = true →
      (splitOnChar '=' line).length = 2 →
      revisionFromLines (line :: rest) = trimStr ((splitOnChar '=' line).getD 1 "")) ∧
    (containsSubstring (toLowerStr line) "pkg.revision" = true →
      (splitOnChar '=' line).length ≠ 2 →
      revisionFromLines (line :: rest) = revisionFromLines rest) := by
  constructor
  · intro hc hl
    unfold revisionFromLines
    simp [hc, hl]
  · intro hc hl
    unfold revisionFromLines
    simp [hc, hl]
    cases rest with
    | nil => rfl
    | cons a b => simp [revisionFromLines, List.getD]

theorem revision_substring_match_and_skip_witness :
    revisionFromLines ["x=a pkg.revision b"] =
      trimStr ((splitOnChar '=' "x=a pkg.revision b").getD 1 "") ∧
    revisionFromLines ["pkg.revision", "Pkg.Revision=7"] =
      revisionFromLines ["Pkg.Revision=7"] :=
  ⟨(revision_substring_match_and_skip "x=a pkg.revision b" []).1
     (by decide) (by decide),
   (revision_substring_match_and_skip "pkg.revision" ["Pkg.Revision=7"]).2
     (by decide) (by decide)⟩

/-- C5: a successful install of a version differing from the probed one
first recursively deletes the prior location, then invokes the package
manager with the requested version; the resulting install path is the
SDK root joined with the component's version-specific relative install
path (which ends in the version); the exported toolchain-home variable
equals that path, and the exported PATH is the previous PATH with a
colon and that path appended — all the old entries kept as a prefix. -/
theorem updateNDK_install_success (version sdkAndroidHome : String)
    (getenv : String → String) (w : ExternalWorld)
    (hdiff : ndkVersion w.fs (currentNDKHome getenv) ≠ version)
    (hrm : w.removeAllResult (currentNDKHome getenv) = none)
    (hnew : w.sdkmanagerNewError = none)
    (hinst : (w.installResult version).2 = none)
    (hexpPath : w.exportResult "PATH"
      (getenv "PATH" ++ ":" ++
        filepathJoin sdkAndroidHome (installPathInAndroidHome version)) = none)
    (hexpHome : w.exportResult androidNDKHome
      (filepathJoin sdkAndroidHome (installPathInAndroidHome version)) = none) :
    updateNDK version sdkAndroidHome getenv w =
      (Except.ok (),
        [Action.removeAll (currentNDKHome getenv),
         Action.sdkmanagerInstall version,
         Action.exportEnv "PATH"
           (getenv "PATH" ++ ":" ++
             filepathJoin sdkAndroidHome (installPathInAndroidHome version)),
         Action.exportEnv androidNDKHome
           (filepathJoin sdkAndroidHome (installPathInAndroidHome version))]) ∧
    (∃ front, installPathInAndroidHome version = front ++ version) := by
  constructor
  · unfold updateNDK
    simp [hdiff, hrm, hnew, hinst, hexpPath, hexpHome]
  · refine ⟨"ndk/", ?_⟩
    unfold installPathInAndroidHome filepathJoin
    simp

theorem updateNDK_install_success_witness :
    ndkVersion sampleWorld.fs (currentNDKHome sampleGetenv) ≠ "22.1.7171670" ∧
    (updateNDK "22.1.7171670" "/sdk" sampleGetenv sampleWorld =
      (Except.ok (),
        [Action.removeAll (currentNDKHome sampleGetenv),
         Action.sdkmanagerInstall "22.1.7171670",
         Action.exportEnv "PATH"
           (sampleGetenv "PATH" ++ ":" ++
             filepathJoin "/sdk" (installPathInAndroidHome "22.1.7171670")),
         Action.exportEnv androidNDKHome
           (filepathJoin "/sdk" (installPathInAndroidHome "22.1.7171670"))]) ∧
      (∃ front, installPathInAndroidHome "22.1.7171670" = front ++ "22.1.7171670")) :=
  ⟨by decide,
   updateNDK_install_success "22.1.7171670" "/sdk" sampleGetenv sampleWorld
     (by decide) rfl rfl rfl rfl rfl⟩

/-- The world refuting claim C8: the probe finds nothing, the removal and
the install succeed, the PATH export succeeds, and the toolchain-home
export fails. -/
def c8World : ExternalWorld where
  fs := fun _ => none
  removeAllResult := fun _ => none
  sdkmanagerNewError := none
  installResult := fun _ => ("", none)
  exportResult := fun k _ => if k = androidNDKHome then some "envman failed" else none

/-- C8 counterexample: in this execution the step fails (the
toolchain-home export errors) yet the PATH entry has already been
durably published — the published environment is partially written,
refuting "either the full sequence completes or the step fails before
publishing any of the environment entries". -/
theorem updateNDK_partial_publish :
    (updateNDK "22.1.7171670" "/sdk" sampleGetenv c8World).1 =
      Except.error "envman failed" ∧
    publishedEntries (updateNDK "22.1.7171670" "/sdk" sampleGetenv c8World).2 =
      [("PATH", "/usr/bin:/sdk/ndk/22.1.7171670")] :=
  ⟨rfl, rfl⟩

/-- C8 amended: on the install path (probed version differs from the
requested one) the published entries always form a prefix of the
two-entry sequence PATH-then-toolchain-home: on success exactly the two
entries are published in that order, and on failure either nothing has
been published or only the PATH entry has (when the toolchain-home
export fails after a successful PATH export). -/
theorem updateNDK_publish_order (version sdkAndroidHome : String)
    (getenv : String → String) (w : ExternalWorld)
    (hdiff : ndkVersion w.fs (currentNDKHome getenv) ≠ version) :
    ((updateNDK version sdkAndroidHome getenv w).1 = Except.ok () →
      publishedEntries (updateNDK version sdkAndroidHome getenv w).2 =
        [("PATH", getenv "PATH" ++ ":" ++
            filepathJoin sdkAndroidHome (installPathInAndroidHome version)),
         (androidNDKHome,
            filepathJoin sdkAndroidHome (installPathInAndroidHome version))]) ∧
    (∀ e, (updateNDK version sdkAndroidHome getenv w).1 = Except.error e →
      publishedEntries (updateNDK version sdkAndroidHome getenv w).2 = [] ∨
      publishedEntries (updateNDK version sdkAndroidHome getenv w).2 =
        [("PATH", getenv "PATH" ++ ":" ++
            filepathJoin sdkAndroidHome (installPathInAndroidHome version))]) := by
  rcases h1 : w.removeAllResult (currentNDKHome getenv) with _ | e1
  · rcases h2 : w.sdkmanagerNewError with _ | e2
    · rcases h3 : (w.installResult version).2 with _ | e3
      · rcases h4 : w.exportResult "PATH"
            (getenv "PATH" ++ ":" ++
              filepathJoin sdkAndroidHome (installPathInAndroidHome version))
            with _ | e4
        · rcases h5 : w.exportResult androidNDKHome
              (filepathJoin sdkAndroidHome (installPathInAndroidHome version))
              with _ | e5
          · simp [updateNDK, publishedEntries, hdiff, h1, h2, h3, h4, h5]
          · simp [updateNDK, publishedEntries, hdiff, h1, h2, h3, h4, h5]
        · simp [updateNDK, publishedEntries, hdiff, h1, h2, h3, h4]
      · simp [updateNDK, publishedEntries, hdiff, h1, h2, h3]
    · simp [updateNDK, publishedEntries, hdiff, h1, h2]
  · simp [updateNDK, publishedEntries, hdiff, h1]

theorem updateNDK_publish_order_witness :
    ndkVersion sampleWorld.fs (currentNDKHome sampleGetenv) ≠ "22.1.7171670" ∧
    publishedEntries (updateNDK "22.1.7171670" "/sdk" sampleGetenv sampleWorld).2 =
      [("PATH", sampleGetenv "PATH" ++ ":" ++
          filepathJoin "/sdk" (installPathInAndroidHome "22.1.7171670")),
       (androidNDKHome,
          filepathJoin "/sdk" (installPathInAndroidHome "22.1.7171670"))] :=
  ⟨by decide,
   (updateNDK_publish_order "22.1.7171670" "/sdk" sampleGetenv sampleWorld
      (by decide)).1 rfl⟩

end AndroidTools
